import Mathlib

/-!
Shallow embedding of the `cloudflare-assets-kv` repository.

Two request-interception wrappers are embedded:

* `withPathKv` (the `path-kv` module): content-negotiating lookup that, for a
  GET request, computes an ordered list of candidate KV keys from the URL
  pathname and the `Accept` header, probes the KV store one key at a time and
  serves the first hit.
* `withAssetsKV` (`src/index.ts`): a single-key asset lookup with configurable
  exclusions, path handling and caching headers.

Modelling conventions:
* A Cloudflare KV namespace is a total map `Store` from string keys to a
  `StoreResult` (the call can also throw, modelled by `StoreResult.err`).
  Each stored entry carries an optional `contentType` metadata field, which
  `getWithMetadata` returns and plain `get` ignores, exactly as in the API.
* `decodeURIComponent` is the JS builtin applied to `url.pathname`; URL
  pathnames are already percent-encoding free in the embedding, on which the
  builtin is the identity, so the raw and decoded pathnames coincide.
* The environment object is reduced to the one field the wrappers read:
  the configured KV binding (`env[kvBinding]` / `env[opts.kvNamespace]`),
  which is `none` when the binding is absent.
* Header names in `HttpRequest.headers` are normalised to lower case, matching
  the case-insensitive `Headers.get` of the Fetch API.
* The KV operations a wrapper issues are recorded as an explicit `KVOp` trace,
  so that read-only-ness and probe order are stated over the trace.
-/

namespace CFKV

/-- Result of one KV namespace call on a key: the call throws (`err`), or
returns the stored value (`none` when the key is absent) together with the
optional `contentType` field of the stored metadata. -/
inductive StoreResult where
  | err : StoreResult
  | ok (value : Option String) (metaContentType : Option String) : StoreResult
deriving DecidableEq, Repr

/-- A KV namespace: a total map from string keys to lookup results. -/
def Store : Type := String → StoreResult

/-- Returns `true` when the lookup returned null (absent key) or threw. -/
def StoreResult.isNullOrErr : StoreResult → Bool
  | .err => true
  | .ok none _ => true
  | .ok (some _) _ => false

/-- An operation issued against a KV namespace. The wrappers only ever build
`get` / `getWithMetadata`; `put` and `delete` exist so that leaving the store
unchanged is a non-trivial statement. -/
inductive KVOp where
  | get (key : String)
  | getWithMetadata (key : String)
  | put (key : String) (value : String) (metaContentType : Option String)
  | delete (key : String)
deriving DecidableEq, Repr

/-- Read-only KV operations. -/
def KVOp.isRead : KVOp → Bool
  | .get _ => true
  | .getWithMetadata _ => true
  | .put _ _ _ => false
  | .delete _ => false

/-- The effect of one KV operation on the store's contents. -/
def applyOp (s : Store) : KVOp → Store
  | .get _ => s
  | .getWithMetadata _ => s
  | .put k v m => fun key => if key = k then .ok (some v) m else s key
  | .delete k => fun key => if key = k then .ok none none else s key

/-- An HTTP request as the wrappers observe it: method, URL pathname and
hostname, headers (lower-cased names) and body. -/
structure HttpRequest where
  method : String
  pathname : String
  hostname : String
  headers : List (String × String)
  body : String
deriving DecidableEq, Repr

/-- Models `request.headers.get(name)`: value of the first header with that
(lower-cased) name, or null. -/
def headerGet (r : HttpRequest) (name : String) : Option String :=
  (r.headers.find? (fun p => p.1 = name)).map (fun p => p.2)

/-- An HTTP response: status, headers in order, body. -/
structure HttpResponse where
  status : Nat
  headers : List (String × String)
  body : String
deriving DecidableEq, Repr

/-! ### JS string builtins

The JS string builtins the source uses (`split` on a one-character separator,
`trim`, `startsWith`, `endsWith`, `includes` of a character, `toLowerCase`)
are modelled structurally over the character list of the string. -/

/-- Models `String.prototype.split` with a one-character separator, on character
lists: `"" → [""]`, and a separator at either end yields an empty piece. -/
def splitCharList (c : Char) : List Char → List (List Char)
  | [] => [[]]
  | x :: xs =>
    let r := splitCharList c xs
    if x = c then [] :: r
    else (x :: r.headD []) :: r.tail

/-- Models `s.split(c)` for a one-character separator `c`. -/
def jsSplit (s : String) (c : Char) : List String :=
  (splitCharList c s.toList).map String.mk

/-- Models `s.trim()`: strip whitespace from both ends. -/
def jsTrim (s : String) : String :=
  String.mk (((s.toList.dropWhile Char.isWhitespace).reverse.dropWhile
    Char.isWhitespace).reverse)

/-- Does the first character list start with the second? -/
def listStarts : List Char → List Char → Bool
  | _, [] => true
  | [], _ :: _ => false
  | x :: xs, y :: ys => x = y && listStarts xs ys

/-- Models `s.startsWith(p)`. -/
def jsStarts (s p : String) : Bool := listStarts s.toList p.toList

/-- Models `s.endsWith(p)`. -/
def jsEnds (s p : String) : Bool := listStarts s.toList.reverse p.toList.reverse

/-- Does the string contain the character? -/
def jsContains (s : String) (c : Char) : Bool := s.toList.contains c

/-- Models `s.toLowerCase()` (the source only lower-cases ASCII file extensions). -/
def jsToLower (s : String) : String := String.mk (s.toList.map Char.toLower)

/-! ### path-kv: `parseAcceptHeader`, `getContentType`, `tryGetFromKV` -/

/-- Models `const DEFAULT_EXTENSIONS = ["txt", "md", "json", "html"]`. -/
def DEFAULT_EXTENSIONS : List String := ["txt", "md", "json", "html"]

/-- The `switch (type)` of `parseAcceptHeader`: extension pushed for one
accepted MIME type, if any. -/
def extensionOfType (t : String) : Option String :=
  if t = "text/html" then some "html"
  else if t = "application/json" then some "json"
  else if t = "text/markdown" then some "md"
  else if t = "text/x-markdown" then some "md"
  else if t = "text/plain" then some "txt"
  else none

/-- Models `parseAcceptHeader(acceptHeader)`: extension preference order negotiated
from the `Accept` header. A null or empty header (both falsy) and the literal
`*/*` give the default order; otherwise the comma-separated entries are
trimmed, stripped of `;` parameters, `*/*` entries dropped, mapped through
the `switch`, and the remaining default extensions appended. -/
def parseAcceptHeader (acceptHeader : Option String) : List String :=
  match acceptHeader with
  | none => DEFAULT_EXTENSIONS
  | some h =>
    if h = "" ∨ h = "*/*" then DEFAULT_EXTENSIONS
    else
      let acceptTypes :=
        ((jsSplit h ',').map (fun t => (jsSplit (jsTrim t) ';').headD "")).filter
          (fun t => t ≠ "*/*")
      let extensions := acceptTypes.filterMap extensionOfType
      extensions ++ DEFAULT_EXTENSIONS.filter (fun e => ¬ extensions.contains e)

/-- Models `getContentType(extension)`: the content-type table of path-kv, defaulting
to `application/octet-stream`. -/
def getContentType (extension : String) : String :=
  if extension = "html" then "text/html"
  else if extension = "json" then "application/json"
  else if extension = "md" then "text/markdown"
  else if extension = "txt" then "text/plain"
  else if extension = "css" then "text/css"
  else if extension = "js" then "application/javascript"
  else if extension = "png" then "image/png"
  else if extension = "jpg" then "image/jpeg"
  else if extension = "jpeg" then "image/jpeg"
  else if extension = "gif" then "image/gif"
  else if extension = "svg" then "image/svg+xml"
  else if extension = "ico" then "image/x-icon"
  else if extension = "pdf" then "application/pdf"
  else "application/octet-stream"

/-- Models `path.split(".").pop() || "txt"`: the part after the last dot (the whole
path when it has no dot), with the falsy empty string replaced by `"txt"`. -/
def lastDotPart (path : String) : String :=
  let e := (jsSplit path '.').getLastD ""
  if e = "" then "txt" else e

/-- A KV hit as `tryGetFromKV` returns it: the stored text and the content
type chosen for it. -/
structure Asset where
  content : String
  contentType : String
deriving DecidableEq, Repr

/-- Models `tryGetFromKV(kv, path, prefix)`: looks up `prefix + path` with
`getWithMetadata`. A thrown error, an absent key and a falsy (empty) stored
value all yield null; on a hit the content type is the truthy
`metadata?.contentType`, falling back to `getContentType` on the extension of
`path` (without the configured key prelude). -/
def tryGetFromKV (kv : Store) (path : String) (pre : String) : Option Asset :=
  match kv (pre ++ path) with
  | .err => none
  | .ok none _ => none
  | .ok (some v) m =>
    if v = "" then none
    else
      some { content := v
             contentType :=
               match m with
               | some ct => if ct = "" then getContentType (lastDotPart path) else ct
               | none => getContentType (lastDotPart path) }

/-! ### path-kv: candidate keys of `withPathKv` -/

/-- The trailing-slash strip of `withPathKv`:
`if (path.length > 1 && path.endsWith("/")) path = path.slice(0, -1)`. -/
def trimTrailingSlash (p : String) : String :=
  if p.length > 1 && jsEnds p "/" then p.dropRight 1 else p

/-- Characters of `p` after its last `/` (all of `p` when it has none). -/
def lastSegment (p : String) : String :=
  String.mk ((p.toList.reverse.takeWhile (fun c => c ≠ '/')).reverse)

/-- The test `/\.[^\x2f]+$/.test(path)`: some `.` is followed by at least one
character and no `/` up to the end of the string — equivalently, the last
path segment contains a dot before its final character. -/
def hasExtension (p : String) : Bool :=
  jsContains ((lastSegment p).dropRight 1) '.'

/-- The ordered candidate lookup paths `withPathKv` probes for a GET request,
as a function of the URL pathname and the `Accept` header:
* pathname with its trailing slash stripped when it has an extension;
* `path + "index" + "." + ext` per negotiated extension when the pathname
  ends in `/` (with `path` the stripped pathname);
* otherwise the bare path first, then `path + "." + ext` per negotiated
  extension. -/
def withPathKvCandidates (pathname : String) (accept : Option String) : List String :=
  let path := trimTrailingSlash pathname
  if hasExtension path then [path]
  else if jsEnds pathname "/" then
    (parseAcceptHeader accept).map (fun ext => path ++ "index." ++ ext)
  else
    path :: (parseAcceptHeader accept).map (fun ext => path ++ "." ++ ext)

/-! ### path-kv: the probing loop and the wrapper -/

/-- The sequential probe loop of `withPathKv`: try each candidate path in
order with `tryGetFromKV`, recording the issued `getWithMetadata` operations,
and stop at the first hit. -/
def probeKeys (kv : Store) (pre : String) : List String → List KVOp × Option Asset
  | [] => ([], none)
  | k :: ks =>
    match tryGetFromKV kv k pre with
    | some a => ([KVOp.getWithMetadata (pre ++ k)], some a)
    | none =>
      let r := probeKeys kv pre ks
      (KVOp.getWithMetadata (pre ++ k) :: r.1, r.2)

/-- The environment as the wrappers read it: the configured KV binding, or
`none` when it is missing from the environment. -/
structure Env where
  kv : Option Store

/-- The KV-facing part of one `withPathKv` invocation: the trace of issued KV
operations and the asset served (none means fall through to the handler).
Non-GET requests and a missing KV binding issue no operation. -/
def withPathKvCore (env : Env) (pre : String) (req : HttpRequest) :
    List KVOp × Option Asset :=
  if req.method ≠ "GET" then ([], none)
  else
    match env.kv with
    | none => ([], none)
    | some kv => probeKeys kv pre (withPathKvCandidates req.pathname (headerGet req "accept"))

/-- The response `withPathKv` builds for a KV hit:
`new Response(content, { "Content-Type": ..., "Cache-Control": "public, max-age=3600" })`. -/
def pathKvResponse (a : Asset) : HttpResponse :=
  { status := 200
    headers := [("Content-Type", a.contentType), ("Cache-Control", "public, max-age=3600")]
    body := a.content }

/-- One invocation of the fetch handler returned by `withPathKv(handler, options)`:
the KV operation trace together with the response — the served asset on a hit,
`handler(request, env, ctx)` otherwise. -/
def withPathKvRun {Ctx : Type} (handler : HttpRequest → Env → Ctx → HttpResponse)
    (pre : String) (req : HttpRequest) (env : Env) (ctx : Ctx) :
    List KVOp × HttpResponse :=
  let r := withPathKvCore env pre req
  (r.1, match r.2 with
        | some a => pathKvResponse a
        | none => handler req env ctx)

/-! ### withAssetsKV (`src/index.ts`) -/

/-- The options of `withAssetsKV` after merging with `defaultOptions`
(the `kvNamespace` binding name is abstracted into `Env.kv`; `browserTTL` is
declared in the source but never read). -/
structure AssetsKvOptions where
  excludePaths : List String := []
  pathLead : String := ""
  cacheControl : String := "public, max-age=31536000"
  includeHost : Bool := false
deriving DecidableEq, Repr

/-- The `contentTypeMap` record of `src/index.ts`. -/
def contentTypeMap (ext : String) : Option String :=
  if ext = "html" then some "text/html"
  else if ext = "css" then some "text/css"
  else if ext = "js" then some "application/javascript"
  else if ext = "mjs" then some "application/javascript"
  else if ext = "json" then some "application/json"
  else if ext = "png" then some "image/png"
  else if ext = "jpg" then some "image/jpeg"
  else if ext = "jpeg" then some "image/jpeg"
  else if ext = "gif" then some "image/gif"
  else if ext = "svg" then some "image/svg+xml"
  else if ext = "ico" then some "image/x-icon"
  else if ext = "txt" then some "text/plain"
  else if ext = "md" then some "text/markdown"
  else if ext = "woff" then some "font/woff"
  else if ext = "woff2" then some "font/woff2"
  else if ext = "ttf" then some "font/ttf"
  else if ext = "otf" then some "font/otf"
  else if ext = "pdf" then some "application/pdf"
  else if ext = "xml" then some "application/xml"
  else none

/-- The single KV key `withAssetsKV` builds from the request URL: append
`index.html` to directory paths, strip the leading slash, prepend the truthy
configured path lead-in, and prepend `hostname + "/"` when `includeHost`. -/
def assetsKey (opts : AssetsKvOptions) (hostname pathname : String) : String :=
  let key := pathname
  let key := if jsEnds key "/" || key = "" then key ++ "index.html" else key
  let key := if jsStarts key "/" then key.drop 1 else key
  let key := if opts.pathLead ≠ "" then opts.pathLead ++ key else key
  if opts.includeHost then hostname ++ "/" ++ key else key

/-- Models `key.split(".").pop()?.toLowerCase() || ""`. -/
def assetsExtension (key : String) : String :=
  jsToLower ((jsSplit key '.').getLastD "")

/-- Models the ETag template (key and hexadecimal clock in quotes), with the clock quotes, with the clock
passed in as `now`. -/
def assetsEtag (key : String) (now : Nat) : String :=
  "\"" ++ key ++ "-" ++ String.mk (Nat.toDigits 16 now) ++ "\""

/-- The response `withAssetsKV` builds for a found asset. -/
def assetsResponse (opts : AssetsKvOptions) (key body : String) (now : Nat) :
    HttpResponse :=
  { status := 200
    headers := [("Content-Type", (contentTypeMap (assetsExtension key)).getD
                   "application/octet-stream"),
                ("Cache-Control", opts.cacheControl),
                ("ETag", assetsEtag key now)]
    body := body }

/-- The KV-facing part of one `withAssetsKV` invocation: the trace of issued
KV operations and the found asset body (none means fall through). Excluded
paths, non-GET requests and a missing binding issue no operation; a thrown
`get` is caught and falls through. -/
def withAssetsKVCore (opts : AssetsKvOptions) (env : Env) (req : HttpRequest) :
    List KVOp × Option String :=
  if opts.excludePaths.any (fun p => jsStarts req.pathname p) then ([], none)
  else if req.method ≠ "GET" then ([], none)
  else
    match env.kv with
    | none => ([], none)
    | some kv =>
      let key := assetsKey opts req.hostname req.pathname
      match kv key with
      | .err => ([KVOp.get key], none)
      | .ok none _ => ([KVOp.get key], none)
      | .ok (some v) _ => ([KVOp.get key], some v)

/-- One invocation of the fetch handler returned by
`withAssetsKV(handler, options)`. -/
def withAssetsKVRun {Ctx : Type} (handler : HttpRequest → Env → Ctx → HttpResponse)
    (opts : AssetsKvOptions) (req : HttpRequest) (env : Env) (ctx : Ctx)
    (now : Nat) : List KVOp × HttpResponse :=
  let r := withAssetsKVCore opts env req
  (r.1, match r.2 with
        | some v => assetsResponse opts (assetsKey opts req.hostname req.pathname) v now
        | none => handler req env ctx)

/-! ### Sequential invocation of a wrapped handler

The fetch handlers returned by `withPathKv` / `withAssetsKV` close over only
the immutable options, so a sequence of invocations is the pointwise
application of the single-invocation semantics. -/

/-- The KV-facing results of a sequence of invocations of one `withPathKv`
wrapped handler, in invocation order. -/
def runPathKvSeq (env : Env) (pre : String) :
    List HttpRequest → List (List KVOp × Option Asset)
  | [] => []
  | r :: rs => withPathKvCore env pre r :: runPathKvSeq env pre rs

/-- The KV-facing results of a sequence of invocations of one `withAssetsKV`
wrapped handler, in invocation order. -/
def runAssetsSeq (opts : AssetsKvOptions) (env : Env) :
    List HttpRequest → List (List KVOp × Option String)
  | [] => []
  | r :: rs => withAssetsKVCore opts env r :: runAssetsSeq opts env rs

/-- Every listed key reads as null or a thrown error in the (possibly absent)
KV binding: the condition under which a wrapped handler sees only misses. -/
def allMisses (okv : Option Store) (keys : List String) : Bool :=
  match okv with
  | none => true
  | some kv => keys.all (fun k => (kv k).isNullOrErr)

/-! ### Concrete fixtures used by witnesses and counterexamples -/

/-- A handler that ignores its arguments, standing in for arbitrary wrapped
worker code. -/
def handler404 : HttpRequest → Env → Unit → HttpResponse :=
  fun _ _ _ => { status := 404, headers := [], body := "Not Found" }

/-- A store holding markdown at `/a.md` only. -/
def kvW1 : Store := fun k =>
  if k = "/a.md" then StoreResult.ok (some "hello") none
  else StoreResult.ok none none

/-- A GET request for `/a` with no Accept header. -/
def reqW1 : HttpRequest :=
  { method := "GET", pathname := "/a", hostname := "example.com", headers := [], body := "" }

/-- A store that throws on `/b.txt` and has no other key. -/
def kvW2 : Store := fun k =>
  if k = "/b.txt" then StoreResult.err else StoreResult.ok none none

/-- A GET request for `/b` with no Accept header. -/
def reqW2 : HttpRequest :=
  { method := "GET", pathname := "/b", hostname := "example.com", headers := [], body := "" }

/-- A GET request for `/p` with an Accept header, an extra header, a body and
a hostname of its own. -/
def reqW4a : HttpRequest :=
  { method := "GET", pathname := "/p", hostname := "h1",
    headers := [("accept", "text/html"), ("x-extra", "1")], body := "AAA" }

/-- A GET request for the same `/p` and the same Accept header value, but
different other headers, body and hostname. -/
def reqW4b : HttpRequest :=
  { method := "GET", pathname := "/p", hostname := "h2",
    headers := [("accept", "text/html"), ("cookie", "z")], body := "BBB" }

/-- A store holding `x.data` with a stored metadata content type. -/
def storeC5 : Store := fun k =>
  if k = "x.data" then StoreResult.ok (some "payload") (some "text/plain")
  else StoreResult.ok none none

/-- A GET request for `/x.data`. -/
def reqC5 : HttpRequest :=
  { method := "GET", pathname := "/x.data", hostname := "h", headers := [], body := "" }

/-- A store holding `/m.bin` with a stored metadata content type. -/
def kvW5 : Store := fun k =>
  if k = "/m.bin" then StoreResult.ok (some "DATA") (some "text/x-custom")
  else StoreResult.ok none none

/-- A GET request for `/m.bin`. -/
def reqW5 : HttpRequest :=
  { method := "GET", pathname := "/m.bin", hostname := "h", headers := [], body := "" }

/-- A POST request. -/
def reqPost : HttpRequest :=
  { method := "POST", pathname := "/a", hostname := "example.com", headers := [], body := "p" }

/-- A store with an empty (falsy) value at `/c.txt` and content at `/c.md`. -/
def kvW9 : Store := fun k =>
  if k = "/c.txt" then StoreResult.ok (some "") none
  else if k = "/c.md" then StoreResult.ok (some "body") none
  else StoreResult.ok none none

/-- A GET request for `/c` with no Accept header. -/
def reqW9 : HttpRequest :=
  { method := "GET", pathname := "/c", hostname := "example.com", headers := [], body := "" }

/-! ### Helper lemmas about the probe loop -/

/-- The operations issued by the probe loop are the candidates up to and
including the first hit, each looked up with `getWithMetadata` under the
configured key prelude. -/
theorem probeKeys_fst (kv : Store) (pre : String) (ks : List String) :
    (probeKeys kv pre ks).1 =
      (ks.take (ks.findIdx (fun k => (tryGetFromKV kv k pre).isSome) + 1)).map
        (fun k => KVOp.getWithMetadata (pre ++ k)) := by
  induction ks with
  | nil => simp [probeKeys]
  | cons k ks ih =>
    cases h : tryGetFromKV kv k pre with
    | some a => simp [probeKeys, h, List.findIdx_cons]
    | none => simp [probeKeys, h, List.findIdx_cons, ih]

/-- The probe loop returns the hit of the first candidate that hits. -/
theorem probeKeys_snd (kv : Store) (pre : String) (ks : List String) :
    (probeKeys kv pre ks).2 =
      (ks.find? (fun k => (tryGetFromKV kv k pre).isSome)).bind
        (fun k => tryGetFromKV kv k pre) := by
  induction ks with
  | nil => simp [probeKeys]
  | cons k ks ih =>
    cases h : tryGetFromKV kv k pre with
    | some a => simp [probeKeys, h, List.find?_cons]
    | none => simp [probeKeys, h, List.find?_cons, ih]

/-- Every operation the probe loop issues is a read. -/
theorem probeKeys_all_reads (kv : Store) (pre : String) (ks : List String) :
    (probeKeys kv pre ks).1.all KVOp.isRead = true := by
  induction ks with
  | nil => simp [probeKeys]
  | cons k ks ih =>
    cases h : tryGetFromKV kv k pre with
    | some a => simp [probeKeys, h, KVOp.isRead]
    | none => simp [probeKeys, h, KVOp.isRead, ih]

/-- Replaying a trace of read operations leaves the store unchanged. -/
theorem foldl_applyOp_of_reads (s : Store) (ops : List KVOp)
    (h : ops.all KVOp.isRead = true) : ops.foldl applyOp s = s := by
  induction ops generalizing s with
  | nil => rfl
  | cons op ops ih =>
    rw [List.all_cons, Bool.and_eq_true] at h
    have hs : applyOp s op = s := by
      cases op with
      | get k => rfl
      | getWithMetadata k => rfl
      | put k v m => simp [KVOp.isRead] at h
      | delete k => simp [KVOp.isRead] at h
    rw [List.foldl_cons, hs]
    exact ih s h.2

/-- A hit of `tryGetFromKV` has a non-empty content (the falsy empty string
is treated as a miss). -/
theorem tryGetFromKV_content_ne (kv : Store) (k pre : String) (a : Asset)
    (h : tryGetFromKV kv k pre = some a) : a.content ≠ "" := by
  unfold tryGetFromKV at h
  cases hk : kv (pre ++ k) with
  | err => rw [hk] at h; exact absurd h (by simp)
  | ok v m =>
    cases v with
    | none => rw [hk] at h; exact absurd h (by simp)
    | some s =>
      rw [hk] at h
      dsimp only at h
      by_cases hs : s = ""
      · rw [if_pos hs] at h; exact absurd h (by simp)
      · rw [if_neg hs] at h
        rw [Option.some_inj] at h
        rw [← h]
        exact hs

/-- A lookup that returns null or throws is a `tryGetFromKV` miss. -/
theorem tryGetFromKV_none_of_nullOrErr (kv : Store) (k pre : String)
    (h : (kv (pre ++ k)).isNullOrErr = true) : tryGetFromKV kv k pre = none := by
  unfold tryGetFromKV
  unfold StoreResult.isNullOrErr at h
  cases hk : kv (pre ++ k) with
  | err => rfl
  | ok v m =>
    cases v with
    | none => rfl
    | some s => rw [hk] at h; exact absurd h (by simp)

/-- A probe-loop hit comes from some candidate in the list. -/
theorem probeKeys_hit_exists (kv : Store) (pre : String) (ks : List String) (a : Asset)
    (h : (probeKeys kv pre ks).2 = some a) :
    ∃ k, k ∈ ks ∧ tryGetFromKV kv k pre = some a := by
  induction ks with
  | nil => exact absurd h (by simp [probeKeys])
  | cons k ks ih =>
    cases hk : tryGetFromKV kv k pre with
    | some b =>
      refine ⟨k, List.mem_cons_self k ks, ?_⟩
      rw [hk]
      simp only [probeKeys, hk] at h
      exact h
    | none =>
      simp only [probeKeys, hk] at h
      obtain ⟨k', hmem, hk'⟩ := ih h
      exact ⟨k', List.mem_cons_of_mem k hmem, hk'⟩

/-- When every candidate misses, the probe loop returns no hit. -/
theorem probeKeys_none_of_miss (kv : Store) (pre : String) (ks : List String)
    (h : ∀ k ∈ ks, tryGetFromKV kv k pre = none) : (probeKeys kv pre ks).2 = none := by
  induction ks with
  | nil => rfl
  | cons k ks ih =>
    have hk : tryGetFromKV kv k pre = none := h k (List.mem_cons_self k ks)
    simp only [probeKeys, hk]
    exact ih (fun k' hk' => h k' (List.mem_cons_of_mem k hk'))

/-- A list with some element satisfying `p` has a `find?` result. -/
theorem find?_isSome_of_any {α : Type} (p : α → Bool) (l : List α)
    (h : l.any p = true) : (l.find? p).isSome = true := by
  induction l with
  | nil => exact absurd h (by simp)
  | cons x l ih =>
    cases hx : p x with
    | true => simp [List.find?_cons, hx]
    | false =>
      rw [List.any_cons, hx, Bool.false_or] at h
      simp [List.find?_cons, hx, ih h]

/-- Lemma: `find?` returns an element satisfying the predicate. -/
theorem find?_spec {α : Type} (p : α → Bool) (l : List α) (x : α)
    (h : l.find? p = some x) : p x = true := by
  induction l with
  | nil => exact absurd h (by simp)
  | cons y l ih =>
    cases hy : p y with
    | true =>
      rw [List.find?_cons, hy] at h
      rw [Option.some_inj] at h
      rw [← h]; exact hy
    | false =>
      rw [List.find?_cons, hy] at h
      exact ih h

/-! ### Bridging lemmas between the wrappers and their cores -/

/-- The trace of a `withPathKv` invocation is the trace of its core. -/
theorem withPathKvRun_fst {Ctx : Type} (handler : HttpRequest → Env → Ctx → HttpResponse)
    (pre : String) (req : HttpRequest) (env : Env) (ctx : Ctx) :
    (withPathKvRun handler pre req env ctx).1 = (withPathKvCore env pre req).1 := rfl

/-- The response of a `withPathKv` invocation: the served asset on a hit, the
handler's response otherwise. -/
theorem withPathKvRun_snd {Ctx : Type} (handler : HttpRequest → Env → Ctx → HttpResponse)
    (pre : String) (req : HttpRequest) (env : Env) (ctx : Ctx) :
    (withPathKvRun handler pre req env ctx).2 =
      ((withPathKvCore env pre req).2).elim (handler req env ctx) pathKvResponse := by
  cases h : (withPathKvCore env pre req).2 <;>
    simp only [withPathKvRun, h] <;> rfl

/-- The trace of a `withAssetsKV` invocation is the trace of its core. -/
theorem withAssetsKVRun_fst {Ctx : Type} (handler : HttpRequest → Env → Ctx → HttpResponse)
    (opts : AssetsKvOptions) (req : HttpRequest) (env : Env) (ctx : Ctx) (now : Nat) :
    (withAssetsKVRun handler opts req env ctx now).1 = (withAssetsKVCore opts env req).1 := rfl

/-- The response of a `withAssetsKV` invocation: the served asset on a find,
the handler's response otherwise. -/
theorem withAssetsKVRun_snd {Ctx : Type} (handler : HttpRequest → Env → Ctx → HttpResponse)
    (opts : AssetsKvOptions) (req : HttpRequest) (env : Env) (ctx : Ctx) (now : Nat) :
    (withAssetsKVRun handler opts req env ctx now).2 =
      ((withAssetsKVCore opts env req).2).elim (handler req env ctx)
        (fun v => assetsResponse opts (assetsKey opts req.hostname req.pathname) v now) := by
  cases h : (withAssetsKVCore opts env req).2 <;>
    simp only [withAssetsKVRun, h] <;> rfl

/-- For a GET request with the binding present, the `withPathKv` core is the
probe loop over the candidate list. -/
theorem withPathKvCore_get (kv : Store) (pre : String) (req : HttpRequest)
    (hm : req.method = "GET") :
    withPathKvCore ⟨some kv⟩ pre req =
      probeKeys kv pre (withPathKvCandidates req.pathname (headerGet req "accept")) := by
  simp [withPathKvCore, hm]

/-- For a GET request on a non-excluded path with the binding present, the
`withAssetsKV` core issues exactly one `get` on the built key and reports the
value found there. -/
theorem withAssetsKVCore_get (kvA : Store) (opts : AssetsKvOptions) (reqA : HttpRequest)
    (hA : reqA.method = "GET")
    (hx : opts.excludePaths.any (fun p => jsStarts reqA.pathname p) = false) :
    withAssetsKVCore opts ⟨some kvA⟩ reqA =
      ([KVOp.get (assetsKey opts reqA.hostname reqA.pathname)],
       match kvA (assetsKey opts reqA.hostname reqA.pathname) with
       | .ok (some v) _ => some v
       | _ => none) := by
  unfold withAssetsKVCore
  rw [hx, hA]
  simp only [Bool.false_eq_true, if_false, ne_eq, not_true_eq_false]
  cases kvA (assetsKey opts reqA.hostname reqA.pathname) with
  | err => rfl
  | ok v m => cases v <;> rfl

/-! ### The claims -/

/-- C1: For every GET request (`withAssetsKV`: on a non-excluded path) with
the KV binding present, the wrapper computes an ordered list of candidate KV
keys from the URL path and the Accept header, issues the lookups one at a
time in that order — the trace is exactly the candidates up to and including
the first one whose lookup returns a stored value, so candidates after the
first hit are never looked up — and serves the first hit. -/
theorem claim_C1_first_hit_served {Ctx : Type}
    (handler handlerA : HttpRequest → Env → Ctx → HttpResponse)
    (pre : String) (req reqA : HttpRequest) (kv kvA : Store) (ctx : Ctx)
    (opts : AssetsKvOptions) (now : Nat)
    (hm : req.method = "GET") (hA : reqA.method = "GET")
    (hx : opts.excludePaths.any (fun p => jsStarts reqA.pathname p) = false) :
    ((withPathKvRun handler pre req ⟨some kv⟩ ctx).1 =
        ((withPathKvCandidates req.pathname (headerGet req "accept")).take
            ((withPathKvCandidates req.pathname (headerGet req "accept")).findIdx
                (fun k => (tryGetFromKV kv k pre).isSome) + 1)).map
          (fun k => KVOp.getWithMetadata (pre ++ k)) ∧
     (withPathKvRun handler pre req ⟨some kv⟩ ctx).2 =
        (((withPathKvCandidates req.pathname (headerGet req "accept")).find?
             (fun k => (tryGetFromKV kv k pre).isSome)).bind
           (fun k => tryGetFromKV kv k pre)).elim
          (handler req ⟨some kv⟩ ctx) pathKvResponse) ∧
    ((withAssetsKVRun handlerA opts reqA ⟨some kvA⟩ ctx now).1 =
        [KVOp.get (assetsKey opts reqA.hostname reqA.pathname)] ∧
     (withAssetsKVRun handlerA opts reqA ⟨some kvA⟩ ctx now).2 =
        match kvA (assetsKey opts reqA.hostname reqA.pathname) with
        | .ok (some v) _ =>
            assetsResponse opts (assetsKey opts reqA.hostname reqA.pathname) v now
        | _ => handlerA reqA ⟨some kvA⟩ ctx) := by
  refine ⟨⟨?_, ?_⟩, ?_, ?_⟩
  · rw [withPathKvRun_fst, withPathKvCore_get kv pre req hm]
    exact probeKeys_fst kv pre _
  · rw [withPathKvRun_snd, withPathKvCore_get kv pre req hm]
    rw [probeKeys_snd]
  · rw [withAssetsKVRun_fst, withAssetsKVCore_get kvA opts reqA hA hx]
  · rw [withAssetsKVRun_snd, withAssetsKVCore_get kvA opts reqA hA hx]
    cases kvA (assetsKey opts reqA.hostname reqA.pathname) with
    | err => rfl
    | ok v m => cases v <;> rfl

/-- Witness for C1: for GET `/a` with no Accept header and a store holding
only `/a.md`, the wrapper probes `/a`, `/a.txt`, `/a.md` and stops, serving
the markdown; `withAssetsKV` probes the single key `a`. -/
theorem claim_C1_witness :
    (withPathKvRun handler404 "" reqW1 ⟨some kvW1⟩ ()).1 =
      [KVOp.getWithMetadata "/a", KVOp.getWithMetadata "/a.txt",
       KVOp.getWithMetadata "/a.md"] ∧
    (withPathKvRun handler404 "" reqW1 ⟨some kvW1⟩ ()).2 =
      pathKvResponse { content := "hello", contentType := "text/markdown" } ∧
    (withAssetsKVRun handler404 {} reqW1 ⟨some kvW1⟩ () 0).1 = [KVOp.get "a"] := by
  have h := claim_C1_first_hit_served handler404 handler404 "" reqW1 reqW1 kvW1 kvW1
    () {} 0 rfl rfl rfl
  exact ⟨h.1.1.trans (by decide), h.1.2.trans (by decide), h.2.1.trans (by decide)⟩

/-- C2: For every request in which every attempted KV lookup either returns
null or throws, each wrapper returns exactly the response produced by the
wrapped handler applied to the same request, environment and context. -/
theorem claim_C2_miss_falls_through {Ctx : Type}
    (handler handlerA : HttpRequest → Env → Ctx → HttpResponse)
    (pre : String) (req reqA : HttpRequest) (env envA : Env) (ctx : Ctx)
    (opts : AssetsKvOptions) (now : Nat)
    (h : allMisses env.kv
          ((withPathKvCandidates req.pathname (headerGet req "accept")).map
            (fun k => pre ++ k)) = true)
    (hA : allMisses envA.kv [assetsKey opts reqA.hostname reqA.pathname] = true) :
    (withPathKvRun handler pre req env ctx).2 = handler req env ctx ∧
    (withAssetsKVRun handlerA opts reqA envA ctx now).2 = handlerA reqA envA ctx := by
  constructor
  · rw [withPathKvRun_snd]
    obtain ⟨okv⟩ := env
    have hc : (withPathKvCore ⟨okv⟩ pre req).2 = none := by
      cases okv with
      | none =>
        unfold withPathKvCore
        by_cases hm : req.method = "GET" <;> simp [hm]
      | some kv =>
        by_cases hm : req.method = "GET"
        · rw [withPathKvCore_get kv pre req hm]
          apply probeKeys_none_of_miss
          intro k hk
          apply tryGetFromKV_none_of_nullOrErr
          have h' : ((withPathKvCandidates req.pathname (headerGet req "accept")).map
              (fun k => pre ++ k)).all (fun k => (kv k).isNullOrErr) = true := h
          exact List.all_eq_true.mp h' (pre ++ k) (List.mem_map_of_mem _ hk)
        · unfold withPathKvCore
          simp [hm]
    rw [hc]
    rfl
  · rw [withAssetsKVRun_snd]
    obtain ⟨okv⟩ := envA
    have hc : (withAssetsKVCore opts ⟨okv⟩ reqA).2 = none := by
      cases okv with
      | none =>
        unfold withAssetsKVCore
        by_cases hex : opts.excludePaths.any (fun p => jsStarts reqA.pathname p) = true <;>
          by_cases hm : reqA.method = "GET" <;> simp [hex, hm]
      | some kv =>
        have hA' : ((kv (assetsKey opts reqA.hostname reqA.pathname)).isNullOrErr
            && true) = true := hA
        rw [Bool.and_true] at hA'
        by_cases hex : opts.excludePaths.any (fun p => jsStarts reqA.pathname p) = true
        · unfold withAssetsKVCore
          simp [hex]
        · by_cases hm : reqA.method = "GET"
          · rw [Bool.not_eq_true] at hex
            rw [withAssetsKVCore_get kv opts reqA hm hex]
            cases hk : kv (assetsKey opts reqA.hostname reqA.pathname) with
            | err => rfl
            | ok v m =>
              cases v with
              | none => rfl
              | some s =>
                rw [hk] at hA'
                exact absurd hA' (by simp [StoreResult.isNullOrErr])
          · unfold withAssetsKVCore
            simp [hex, hm]
    rw [hc]
    rfl

/-- Witness for C2: with a store that throws on `/b.txt` and holds no other
key, a GET for `/b` falls through to the handler in both wrappers. -/
theorem claim_C2_witness :
    (withPathKvRun handler404 "" reqW2 ⟨some kvW2⟩ ()).2 =
      handler404 reqW2 ⟨some kvW2⟩ () ∧
    (withAssetsKVRun handler404 {} reqW2 ⟨some kvW2⟩ () 0).2 =
      handler404 reqW2 ⟨some kvW2⟩ () :=
  claim_C2_miss_falls_through handler404 handler404 "" reqW2 reqW2
    ⟨some kvW2⟩ ⟨some kvW2⟩ () {} 0 (by decide) (by decide)

/-- C3: Whenever some probed candidate key is found in the KV store, the
wrapper serves the stored asset directly: the response is the served asset
for every possible wrapped handler, so the handler is never invoked. -/
theorem claim_C3_hit_bypasses_handler {Ctx : Type} (pre : String)
    (req reqA : HttpRequest) (kv kvA : Store) (opts : AssetsKvOptions) (now : Nat)
    (v : String) (m : Option String)
    (hm : req.method = "GET")
    (hhit : (withPathKvCandidates req.pathname (headerGet req "accept")).any
              (fun k => (tryGetFromKV kv k pre).isSome) = true)
    (hA : reqA.method = "GET")
    (hx : opts.excludePaths.any (fun p => jsStarts reqA.pathname p) = false)
    (hv : kvA (assetsKey opts reqA.hostname reqA.pathname) = StoreResult.ok (some v) m) :
    (∃ a, (withPathKvCore ⟨some kv⟩ pre req).2 = some a ∧
       ∀ (handler : HttpRequest → Env → Ctx → HttpResponse) (ctx : Ctx),
         (withPathKvRun handler pre req ⟨some kv⟩ ctx).2 = pathKvResponse a) ∧
    ((withAssetsKVCore opts ⟨some kvA⟩ reqA).2 = some v ∧
     ∀ (handlerA : HttpRequest → Env → Ctx → HttpResponse) (ctx : Ctx),
       (withAssetsKVRun handlerA opts reqA ⟨some kvA⟩ ctx now).2 =
         assetsResponse opts (assetsKey opts reqA.hostname reqA.pathname) v now) := by
  constructor
  · have hfind : ((withPathKvCandidates req.pathname (headerGet req "accept")).find?
        (fun k => (tryGetFromKV kv k pre).isSome)).isSome = true :=
      find?_isSome_of_any _ _ hhit
    obtain ⟨k, hk⟩ := Option.isSome_iff_exists.mp hfind
    have hpk : (tryGetFromKV kv k pre).isSome = true := find?_spec _ _ k hk
    obtain ⟨a, ha⟩ := Option.isSome_iff_exists.mp hpk
    have hc : (withPathKvCore ⟨some kv⟩ pre req).2 = some a := by
      rw [withPathKvCore_get kv pre req hm, probeKeys_snd, hk, Option.some_bind, ha]
    refine ⟨a, hc, ?_⟩
    intro handler ctx
    rw [withPathKvRun_snd, hc]
    rfl
  · have hc : (withAssetsKVCore opts ⟨some kvA⟩ reqA).2 = some v := by
      rw [withAssetsKVCore_get kvA opts reqA hA hx, hv]
    refine ⟨hc, ?_⟩
    intro handlerA ctx
    rw [withAssetsKVRun_snd, hc]
    rfl

/-- Witness for C3: the store holding `/a.md` serves GET `/a` directly, and
the store holding `x.data` serves GET `/x.data` directly, for every handler. -/
theorem claim_C3_witness :
    (∃ a, (withPathKvCore ⟨some kvW1⟩ "" reqW1).2 = some a ∧
       ∀ (handler : HttpRequest → Env → Unit → HttpResponse) (ctx : Unit),
         (withPathKvRun handler "" reqW1 ⟨some kvW1⟩ ctx).2 = pathKvResponse a) ∧
    ((withAssetsKVCore {} ⟨some storeC5⟩ reqC5).2 = some "payload" ∧
     ∀ (handlerA : HttpRequest → Env → Unit → HttpResponse) (ctx : Unit),
       (withAssetsKVRun handlerA {} reqC5 ⟨some storeC5⟩ ctx 0).2 =
         assetsResponse {} (assetsKey {} reqC5.hostname reqC5.pathname) "payload" 0) :=
  claim_C3_hit_bypasses_handler "" reqW1 reqC5 kvW1 storeC5 {} 0 "payload"
    (some "text/plain") rfl (by decide) rfl rfl (by decide)

/-- C4: The candidate-key sequence and the whole probe behaviour of
`withPathKv` for a GET request are a pure function of the URL pathname and
the Accept header: two GET requests agreeing on those — whatever their other
headers, bodies or hostnames — produce identical candidate lists and
identical traces and outcomes against any environment. -/
theorem claim_C4_probe_pure (env : Env) (pre : String) (req1 req2 : HttpRequest)
    (h1 : req1.method = "GET") (h2 : req2.method = "GET")
    (hp : req1.pathname = req2.pathname)
    (ha : headerGet req1 "accept" = headerGet req2 "accept") :
    withPathKvCandidates req1.pathname (headerGet req1 "accept") =
      withPathKvCandidates req2.pathname (headerGet req2 "accept") ∧
    withPathKvCore env pre req1 = withPathKvCore env pre req2 := by
  constructor
  · rw [hp, ha]
  · unfold withPathKvCore
    rw [h1, h2, hp, ha]

/-- Witness for C4: two GET requests for `/p` with the same Accept value but
different extra headers, bodies and hostnames probe identically. -/
theorem claim_C4_witness :
    withPathKvCandidates reqW4a.pathname (headerGet reqW4a "accept") =
      withPathKvCandidates reqW4b.pathname (headerGet reqW4b "accept") ∧
    withPathKvCore ⟨some kvW1⟩ "" reqW4a = withPathKvCore ⟨some kvW1⟩ "" reqW4b :=
  claim_C4_probe_pure ⟨some kvW1⟩ "" reqW4a reqW4b rfl rfl rfl (by decide)

/-- The content type of a `tryGetFromKV` hit: the non-empty metadata
contentType when stored, otherwise the type mapped from the looked-up path's
extension. -/
theorem tryGetFromKV_contentType (kv : Store) (k pre : String) (a : Asset)
    (h : tryGetFromKV kv k pre = some a) :
    (∃ ct mv, kv (pre ++ k) = StoreResult.ok mv (some ct) ∧ ct ≠ "" ∧
       a.contentType = ct) ∨
    a.contentType = getContentType (lastDotPart k) := by
  unfold tryGetFromKV at h
  cases hk : kv (pre ++ k) with
  | err => rw [hk] at h; exact absurd h (by simp)
  | ok vv m =>
    cases vv with
    | none => rw [hk] at h; exact absurd h (by simp)
    | some s =>
      rw [hk] at h
      dsimp only at h
      by_cases hs : s = ""
      · rw [if_pos hs] at h; exact absurd h (by simp)
      · rw [if_neg hs] at h
        rw [Option.some_inj] at h
        cases m with
        | none => right; rw [← h]
        | some ct =>
          by_cases hct : ct = ""
          · right; rw [← h]; dsimp only; rw [if_pos hct]
          · left
            refine ⟨ct, some s, rfl, hct, ?_⟩
            rw [← h]; dsimp only; rw [if_neg hct]

/-- A served `withPathKv` hit identifies a GET request, a present binding and
a hitting candidate. -/
theorem withPathKvCore_hit_exists (env : Env) (pre : String) (req : HttpRequest)
    (a : Asset) (h : (withPathKvCore env pre req).2 = some a) :
    ∃ kv, env.kv = some kv ∧ req.method = "GET" ∧
      ∃ k, k ∈ withPathKvCandidates req.pathname (headerGet req "accept") ∧
        tryGetFromKV kv k pre = some a := by
  obtain ⟨okv⟩ := env
  by_cases hm : req.method = "GET"
  · cases okv with
    | none =>
      have hc : withPathKvCore ⟨none⟩ pre req = ([], none) := by
        unfold withPathKvCore; simp [hm]
      rw [hc] at h
      exact absurd h (by simp)
    | some kv =>
      rw [withPathKvCore_get kv pre req hm] at h
      exact ⟨kv, rfl, hm, probeKeys_hit_exists kv pre _ a h⟩
  · have hc : withPathKvCore ⟨okv⟩ pre req = ([], none) := by
      unfold withPathKvCore; simp [hm]
    rw [hc] at h
    exact absurd h (by simp)

/-- C5 counterexample: the claim's content-type rule fails on `withAssetsKV`.
The store holds `x.data` with stored metadata contentType `text/plain`, yet
the served response's Content-Type is `application/octet-stream`: the
`get` call of `withAssetsKV` never reads metadata. -/
theorem claim_C5_counterexample :
    storeC5 "x.data" = StoreResult.ok (some "payload") (some "text/plain") ∧
    (withAssetsKVRun handler404 {} reqC5 ⟨some storeC5⟩ () 0).2.headers.head? =
      some ("Content-Type", "application/octet-stream") ∧
    ("application/octet-stream" : String) ≠ "text/plain" := by
  refine ⟨rfl, by decide, by decide⟩

/-- C5 (amended): every served response carries a Cache-Control header and a
Content-Type chosen for the asset. `withPathKv` serves the hit's computed
type — the non-empty metadata contentType of the hit key when stored,
otherwise the type mapped from the key's extension, defaulting to
`application/octet-stream` — while `withAssetsKV`, whose lookup retrieves no
metadata, serves the type mapped from the key's extension, defaulting to
`application/octet-stream`. -/
theorem claim_C5_amended_headers {Ctx : Type}
    (handler handlerA : HttpRequest → Env → Ctx → HttpResponse)
    (pre : String) (req reqA : HttpRequest) (kv : Store) (env envA : Env)
    (ctx : Ctx) (opts : AssetsKvOptions) (now : Nat) (a : Asset) (v : String)
    (henv : env.kv = some kv)
    (hcore : (withPathKvCore env pre req).2 = some a)
    (hA : (withAssetsKVCore opts envA reqA).2 = some v) :
    ((withPathKvRun handler pre req env ctx).2.headers =
        [("Content-Type", a.contentType),
         ("Cache-Control", "public, max-age=3600")] ∧
     ∃ k, k ∈ withPathKvCandidates req.pathname (headerGet req "accept") ∧
       ((∃ ct mv, kv (pre ++ k) = StoreResult.ok mv (some ct) ∧ ct ≠ "" ∧
           a.contentType = ct) ∨
        a.contentType = getContentType (lastDotPart k))) ∧
    (withAssetsKVRun handlerA opts reqA envA ctx now).2.headers =
      [("Content-Type",
          (contentTypeMap (assetsExtension (assetsKey opts reqA.hostname
             reqA.pathname))).getD "application/octet-stream"),
       ("Cache-Control", opts.cacheControl),
       ("ETag", assetsEtag (assetsKey opts reqA.hostname reqA.pathname) now)] := by
  refine ⟨⟨?_, ?_⟩, ?_⟩
  · rw [withPathKvRun_snd, hcore]
    rfl
  · obtain ⟨kv', henv', hm, k, hkmem, hka⟩ := withPathKvCore_hit_exists env pre req a hcore
    rw [henv'] at henv
    rw [Option.some_inj] at henv
    subst henv
    exact ⟨k, hkmem, tryGetFromKV_contentType _ k pre a hka⟩
  · rw [withAssetsKVRun_snd, hA]
    rfl

/-- Witness for C5 (amended): a `/m.bin` hit with metadata `text/x-custom`
is served with that Content-Type, and the `x.data` asset is served with the
extension-mapped default. -/
theorem claim_C5_witness :
    ((withPathKvRun handler404 "" reqW5 ⟨some kvW5⟩ ()).2.headers =
        [("Content-Type", "text/x-custom"),
         ("Cache-Control", "public, max-age=3600")] ∧
     ∃ k, k ∈ withPathKvCandidates reqW5.pathname (headerGet reqW5 "accept") ∧
       ((∃ ct mv, kvW5 ("" ++ k) = StoreResult.ok mv (some ct) ∧ ct ≠ "" ∧
           ("text/x-custom" : String) = ct) ∨
        ("text/x-custom" : String) = getContentType (lastDotPart k))) ∧
    (withAssetsKVRun handler404 {} reqC5 ⟨some storeC5⟩ () 0).2.headers =
      [("Content-Type",
          (contentTypeMap (assetsExtension (assetsKey {} reqC5.hostname
             reqC5.pathname))).getD "application/octet-stream"),
       ("Cache-Control", AssetsKvOptions.cacheControl {}),
       ("ETag", assetsEtag (assetsKey {} reqC5.hostname reqC5.pathname) 0)] :=
  claim_C5_amended_headers handler404 handler404 "" reqW5 reqC5 kvW5
    ⟨some kvW5⟩ ⟨some storeC5⟩ () {} 0
    { content := "DATA", contentType := "text/x-custom" } "payload"
    rfl (by decide) (by decide)

/-- C6 evaluated: for the directory pathname `/docs/` the code strips the
trailing slash before appending `"index"`, so it probes `/docsindex.{ext}`,
not the `/docs/index.{ext}` the claim (with the README rule and the code's
own comment) promises; only at the root `/` are the `/index.{ext}` keys
produced. -/
theorem claim_C6_failing_input_eval :
    withPathKvCandidates "/docs/" none =
      ["/docsindex.txt", "/docsindex.md", "/docsindex.json", "/docsindex.html"] ∧
    "/docs/index.html" ∉ withPathKvCandidates "/docs/" none ∧
    withPathKvCandidates "/" none =
      ["/index.txt", "/index.md", "/index.json", "/index.html"] := by
  refine ⟨by decide, by decide, by decide⟩

/-- C7: asset resolution only reads from the KV store — every issued
operation is a `get`/`getWithMetadata` — and replaying the issued trace over
any store contents leaves the store unchanged. -/
theorem claim_C7_read_only (env : Env) (pre : String) (req reqA : HttpRequest)
    (opts : AssetsKvOptions) (s : Store) :
    ((withPathKvCore env pre req).1.all KVOp.isRead = true ∧
     (withPathKvCore env pre req).1.foldl applyOp s = s) ∧
    ((withAssetsKVCore opts env reqA).1.all KVOp.isRead = true ∧
     (withAssetsKVCore opts env reqA).1.foldl applyOp s = s) := by
  obtain ⟨okv⟩ := env
  have hp : (withPathKvCore ⟨okv⟩ pre req).1.all KVOp.isRead = true := by
    by_cases hm : req.method = "GET"
    · cases okv with
      | none =>
        have hc : withPathKvCore ⟨none⟩ pre req = ([], none) := by
          unfold withPathKvCore; simp [hm]
        rw [hc]
        rfl
      | some kv =>
        rw [withPathKvCore_get kv pre req hm]
        exact probeKeys_all_reads kv pre _
    · have hc : withPathKvCore ⟨okv⟩ pre req = ([], none) := by
        unfold withPathKvCore; simp [hm]
      rw [hc]
      rfl
  have ha : (withAssetsKVCore opts ⟨okv⟩ reqA).1.all KVOp.isRead = true := by
    by_cases hex : opts.excludePaths.any (fun p => jsStarts reqA.pathname p) = true
    · have hc : withAssetsKVCore opts ⟨okv⟩ reqA = ([], none) := by
        unfold withAssetsKVCore; simp [hex]
      rw [hc]
      rfl
    · rw [Bool.not_eq_true] at hex
      by_cases hm : reqA.method = "GET"
      · cases okv with
        | none =>
          have hc : withAssetsKVCore opts ⟨none⟩ reqA = ([], none) := by
            unfold withAssetsKVCore; simp [hex, hm]
          rw [hc]
          rfl
        | some kv =>
          rw [withAssetsKVCore_get kv opts reqA hm hex]
          rfl
      · have hc : withAssetsKVCore opts ⟨okv⟩ reqA = ([], none) := by
          unfold withAssetsKVCore; simp [hex, hm]
        rw [hc]
        rfl
  exact ⟨⟨hp, foldl_applyOp_of_reads s _ hp⟩, ⟨ha, foldl_applyOp_of_reads s _ ha⟩⟩

/-- C8: for every non-GET request both wrappers issue no KV operation at all
and return exactly the wrapped handler's response for the original request. -/
theorem claim_C8_non_get {Ctx : Type}
    (handler handlerA : HttpRequest → Env → Ctx → HttpResponse)
    (pre : String) (req : HttpRequest) (env : Env) (ctx : Ctx)
    (opts : AssetsKvOptions) (now : Nat) (h : req.method ≠ "GET") :
    withPathKvRun handler pre req env ctx = ([], handler req env ctx) ∧
    withAssetsKVRun handlerA opts req env ctx now = ([], handlerA req env ctx) := by
  have hp : withPathKvCore env pre req = ([], none) := by
    unfold withPathKvCore; simp [h]
  have ha : withAssetsKVCore opts env req = ([], none) := by
    unfold withAssetsKVCore
    by_cases hex : opts.excludePaths.any (fun p => jsStarts req.pathname p) = true <;>
      simp [hex, h]
  constructor
  · refine Prod.ext ?_ ?_
    · rw [withPathKvRun_fst, hp]
    · rw [withPathKvRun_snd, hp]
      rfl
  · refine Prod.ext ?_ ?_
    · rw [withAssetsKVRun_fst, ha]
    · rw [withAssetsKVRun_snd, ha]
      rfl

/-- Witness for C8: a POST request is passed through untouched by both
wrappers, with an empty KV trace. -/
theorem claim_C8_witness :
    withPathKvRun handler404 "" reqPost ⟨some kvW1⟩ () =
      ([], handler404 reqPost ⟨some kvW1⟩ ()) ∧
    withAssetsKVRun handler404 {} reqPost ⟨some kvW1⟩ () 0 =
      ([], handler404 reqPost ⟨some kvW1⟩ ()) :=
  claim_C8_non_get handler404 handler404 "" reqPost ⟨some kvW1⟩ () {} 0 (by decide)

/-- C9: a candidate whose stored value is the empty string is a miss for
`withPathKv` — `tryGetFromKV` returns null on it — and every asset response
`withPathKv` serves has a non-empty body. -/
theorem claim_C9_empty_value_miss {Ctx : Type}
    (handler : HttpRequest → Env → Ctx → HttpResponse)
    (kv : Store) (pre k : String) (m : Option String)
    (env : Env) (req : HttpRequest) (a : Asset) (ctx : Ctx)
    (h : kv (pre ++ k) = StoreResult.ok (some "") m)
    (h2 : (withPathKvCore env pre req).2 = some a) :
    tryGetFromKV kv k pre = none ∧ a.content ≠ "" ∧
    (withPathKvRun handler pre req env ctx).2.body = a.content := by
  refine ⟨?_, ?_, ?_⟩
  · unfold tryGetFromKV
    rw [h]
    dsimp only
    rw [if_pos rfl]
  · obtain ⟨kv', _, _, k', _, hk'⟩ := withPathKvCore_hit_exists env pre req a h2
    exact tryGetFromKV_content_ne kv' k' pre a hk'
  · rw [withPathKvRun_snd, h2]
    rfl

/-- Witness for C9: with an empty string stored at `/c.txt` and content at
`/c.md`, GET `/c` skips the empty value and serves the `/c.md` body. -/
theorem claim_C9_witness :
    tryGetFromKV kvW9 "/c.txt" "" = none ∧
    ({ content := "body", contentType := "text/markdown" } : Asset).content ≠ "" ∧
    (withPathKvRun handler404 "" reqW9 ⟨some kvW9⟩ ()).2.body =
      ({ content := "body", contentType := "text/markdown" } : Asset).content :=
  claim_C9_empty_value_miss handler404 kvW9 "" "/c.txt" none ⟨some kvW9⟩ reqW9
    { content := "body", contentType := "text/markdown" } () (by decide) (by decide)

/-- C10: handling one request leaves no wrapper-local state behind: within
any sequence of invocations of a wrapped handler, each request's KV trace
and outcome (given the same KV contents) are exactly those of running that
request alone, at whatever position it occurs, for both wrappers. -/
theorem claim_C10_no_shared_state (env : Env) (pre : String)
    (opts : AssetsKvOptions) (before after : List HttpRequest) (req : HttpRequest) :
    runPathKvSeq env pre (before ++ req :: after) =
      runPathKvSeq env pre before ++
        withPathKvCore env pre req :: runPathKvSeq env pre after ∧
    runAssetsSeq opts env (before ++ req :: after) =
      runAssetsSeq opts env before ++
        withAssetsKVCore opts env req :: runAssetsSeq opts env after := by
  constructor
  · induction before with
    | nil => rfl
    | cons r rs ih => simp [runPathKvSeq, ih]
  · induction before with
    | nil => rfl
    | cons r rs ih => simp [runAssetsSeq, ih]

end CFKV
